import Mathlib

/-!
Shallow embedding of the Come_Soon_Server backend (two variants of the same
Express/Mongoose server) and proofs about its subscriber lifecycle.

Variant A is `src/server.js` (global fixed-delay broadcast, `DELAY_SECONDS`);
Variant B is `src/unnamed/part_000` (per-subscription delayed broadcast with
an expiry window, `FOLLOW_UP_TIME_LIMIT`).

The store is modelled, as the spec directs, as an opaque document store: a
list of subscriber documents with exact-match queries.  Outbound mail is an
oracle `sendOk : String → Bool` saying whether the transport acknowledges a
given send; a `false` result stands for `transporter.sendMail` rejecting,
which raises an exception in the JS code.
-/

namespace ComeSoon

/-- A subscriber document.  The schema declares `email` (unique) and
`isComingSoon` (default `true`); Variant B's broadcast additionally writes a
`followUpEmailSent` field on the document (absent at creation, i.e. falsy). -/
structure Subscriber where
  email : String
  isComingSoon : Bool
  followUpEmailSent : Bool
  deriving Repr, DecidableEq

/-- The subscriber collection. -/
abbrev Store := List Subscriber

/-- The emails of all documents in the store. -/
def emails (store : Store) : List String := store.map (·.email)

/-- `new Subscriber({ email })`: a fresh document, `isComingSoon` defaulting
to `true`, no `followUpEmailSent` field (falsy). -/
def newSubscriber (email : String) : Subscriber :=
  { email := email, isComingSoon := true, followUpEmailSent := false }

/-- `Subscriber.find({ isComingSoon: true })`. -/
def findComingSoon (store : Store) : List Subscriber :=
  store.filter (fun s => s.isComingSoon = true)

/-- `Subscriber.find({ isComingSoon: false })`. -/
def findNotComingSoon (store : Store) : List Subscriber :=
  store.filter (fun s => s.isComingSoon = false)

/-- `Subscriber.find({ isComingSoon: false }).countDocuments()` — the number
of active (no longer awaiting launch) subscribers. -/
def countActive (store : Store) : Nat := (findNotComingSoon store).length

/-- `Subscriber.findOne({ email })`: first document with this email. -/
def findOne (store : Store) (email : String) : Option Subscriber :=
  store.find? (fun s => s.email = email)

/-- Variant A's `Subscriber.findOneAndUpdate({ email }, { isComingSoon: false })`:
updates the first matching document. -/
def markInactiveA : Store → String → Store
  | [], _ => []
  | s :: rest, e =>
    if s.email = e then { s with isComingSoon := false } :: rest
    else s :: markInactiveA rest e

/-- Variant B's `Subscriber.findOneAndUpdate({ email },
{ isComingSoon: false, followUpEmailSent: true })`: updates the first
matching document, setting both fields in the one update. -/
def markInactiveB : Store → String → Store
  | [], _ => []
  | s :: rest, e =>
    if s.email = e then { s with isComingSoon := false, followUpEmailSent := true } :: rest
    else s :: markInactiveB rest e

/-- A JavaScript value, as far as the broadcast code needs one: the
`startTime` parameter of Variant B's `sendLiveNotificationEmails` receives
whatever the caller passes — a number or a string. -/
inductive JsVal where
  | num : Int → JsVal
  | str : String → JsVal
  deriving Repr, DecidableEq

/-- The numeric value of an unsigned decimal digit string. -/
def digitsToNat (cs : List Char) : Nat :=
  cs.foldl (fun n c => 10 * n + (c.toNat - 48)) 0

/-- JS numeric coercion as used by `currentTime - startTime`: a number is
itself; a string reads as its integer value when it is a plain decimal
numeral and as NaN (modelled as `none`) otherwise — an email address, which
contains `@`, always coerces to NaN. -/
def jsToNumber : JsVal → Option Int
  | .num n => some n
  | .str s =>
    if s.data ≠ [] ∧ s.data.all Char.isDigit then some (digitsToNat s.data)
    else none

/-- JS `>` on a possibly-NaN left operand: any comparison with NaN is false. -/
def jsGt : Option Int → Int → Bool
  | none, _ => false
  | some a, b => decide (a > b)

/-- Variant A's broadcast delay (ms), `DELAY_SECONDS = 20 * 1000`. -/
def DELAY_SECONDS : Int := 20 * 1000

/-- Variant B's follow-up delay and expiry window (ms). -/
def FOLLOW_UP_TIME_LIMIT : Int := 5 * 1000

/-- The body of Variant A's broadcast `for`-loop over the pending snapshot:
send, then `markInactive` on success.  `transporter.sendMail` rejecting
(`sendOk = false`) throws to the `catch` that wraps the whole loop, so the
remaining subscribers are not processed.  Returns the updated store and the
live-notification emails sent, in order. -/
def broadcastLoopA (sendOk : String → Bool) : List Subscriber → Store → Store × List String
  | [], store => (store, [])
  | s :: rest, store =>
    if sendOk s.email then
      let next := broadcastLoopA sendOk rest (markInactiveA store s.email)
      (next.1, s.email :: next.2)
    else
      (store, [])

/-- Variant A's `sendLiveNotificationEmails`: snapshot the pending
subscribers, then run the send loop. -/
def sendLiveNotificationEmailsA (sendOk : String → Bool) (store : Store) :
    Store × List String :=
  broadcastLoopA sendOk (findComingSoon store) store

/-- The body of Variant B's broadcast `for`-loop: a snapshot subscriber whose
`followUpEmailSent` is truthy is skipped; otherwise send and, on success,
apply the atomic `markInactiveB` update.  As in Variant A, a send failure
throws to the `catch` wrapping the whole loop. -/
def broadcastLoopB (sendOk : String → Bool) : List Subscriber → Store → Store × List String
  | [], store => (store, [])
  | s :: rest, store =>
    if s.followUpEmailSent then
      broadcastLoopB sendOk rest store
    else if sendOk s.email then
      let next := broadcastLoopB sendOk rest (markInactiveB store s.email)
      (next.1, s.email :: next.2)
    else
      (store, [])

/-- Variant B's `sendLiveNotificationEmails(startTime)`: fetch the pending
snapshot, compute `timeElapsed = currentTime - startTime`, abandon the pass
when `timeElapsed > FOLLOW_UP_TIME_LIMIT`, otherwise run the send loop. -/
def sendLiveNotificationEmailsB (sendOk : String → Bool) (currentTime : Int)
    (startTime : JsVal) (store : Store) : Store × List String :=
  let timeElapsed := (jsToNumber startTime).map (fun t0 => currentTime - t0)
  if jsGt timeElapsed FOLLOW_UP_TIME_LIMIT then
    (store, [])
  else
    broadcastLoopB sendOk (findComingSoon store) store

/-- The argument Variant B's subscribe handler passes to the delayed
broadcast: `setTimeout(() => sendLiveNotificationEmails(newSubscriber.email), ...)`
hands over the subscriber's email, not a timestamp. -/
def scheduledBroadcastArg (email : String) : JsVal := .str email

/-- An HTTP JSON response; only the fields the handlers actually emit. -/
structure Response where
  status : Nat
  message : Option String := none
  error : Option String := none
  success : Option Bool := none
  siteLive : Option Bool := none
  hasAccess : Option Bool := none
  deriving Repr, DecidableEq

/-- `POST /api/subscribe` (both variants share this store/response logic):
reject a missing (falsy, i.e. empty) email with 400; `save()` raises the
duplicate-key error 11000 when the email already exists, mapped to 400;
otherwise the document is inserted and the confirmation email is sent —
a send failure is caught and mapped to 500, with no rollback of the insert.
`sendOk` is whether `transporter.sendMail` succeeds for this confirmation. -/
def subscribeHandler (store : Store) (email : String) (sendOk : Bool) :
    Response × Store :=
  if email = "" then
    ({ status := 400, error := some "Email is required" }, store)
  else if store.any (fun s => s.email = email) then
    ({ status := 400, error := some "This email is already subscribed." }, store)
  else
    let store' := store ++ [newSubscriber email]
    if sendOk then
      ({ status := 200,
         message := some "Subscription successful, confirmation email sent." }, store')
    else
      ({ status := 500, error := some "Server error" }, store')

/-- `GET /api/site-status` (both variants): the site is live when some
subscriber has `isComingSoon: false`. -/
def siteStatusHandler (store : Store) : Response :=
  let liveSubscribers := findNotComingSoon store
  { status := 200, siteLive := some (decide (liveSubscribers.length > 0)) }

/-- The module-scope identifiers of Variant B that the unsubscribe handler
could resolve a model name against; only `Subscriber` is defined — the
handler's `User` is not among them. -/
def definedModels : List String := ["Subscriber"]

/-- `POST /api/unsubscribe` (Variant B).  The handler calls
`User.deleteOne({ email })`, but `User` is never defined in the file
(`definedModels`), so evaluating it raises `ReferenceError`, which the
`catch` maps to 500.  The 404 / `{success:true}` branches below are the
source's own code, reachable only if a `User` model existed. -/
def unsubscribeHandler (store : Store) (email : String) : Response × Store :=
  if definedModels.contains "User" then
    let deletedCount := if store.any (fun s => s.email = email) then 1 else 0
    if deletedCount > 0 then
      ({ status := 200, success := some true },
       store.eraseP (fun s => s.email = email))
    else
      ({ status := 404, error := some "User not found." }, store)
  else
    ({ status := 500, error := some "An error occurred while unsubscribing." }, store)

/-- `POST /api/check-access` (Variant B): 400 on missing email; otherwise
200 with `hasAccess = (subscriber.isComingSoon === false)` for a known
subscriber, `hasAccess = false` for an unknown one, and the derived
`siteLive` in both cases. -/
def checkAccessHandler (store : Store) (email : String) : Response :=
  if email = "" then
    { status := 400, error := some "Email is required" }
  else
    let siteLive := decide (countActive store > 0)
    match findOne store email with
    | some subscriber =>
      { status := 200, hasAccess := some (subscriber.isComingSoon = false),
        siteLive := some siteLive }
    | none =>
      { status := 200, hasAccess := some false, siteLive := some siteLive }

/-- All the store-mutating and store-reading operations Variant A
(`src/server.js`) exposes: its routes are subscribe and site-status, plus
the one-shot broadcast timer. -/
inductive OpA where
  | subscribe (email : String) (sendOk : Bool)
  | siteStatus
  | broadcast (sendOk : String → Bool)

/-- The effect of a Variant A operation on the store. -/
def applyOpA : OpA → Store → Store
  | .subscribe e ok, st => (subscribeHandler st e ok).2
  | .siteStatus, st => st
  | .broadcast p, st => (sendLiveNotificationEmailsA p st).1

/-- A sequence of Variant A operations, applied left to right. -/
def applyOpsA : List OpA → Store → Store
  | [], st => st
  | op :: rest, st => applyOpsA rest (applyOpA op st)

/-- All the operations Variant B (`src/unnamed/part_000`) exposes:
subscribe, unsubscribe, check-access, site-status, and the delayed
broadcast passes its subscribes schedule. -/
inductive OpB where
  | subscribe (email : String) (sendOk : Bool)
  | unsubscribe (email : String)
  | checkAccess (email : String)
  | siteStatus
  | broadcast (sendOk : String → Bool) (currentTime : Int) (startTime : JsVal)

/-- The effect of a Variant B operation on the store. -/
def applyOpB : OpB → Store → Store
  | .subscribe e ok, st => (subscribeHandler st e ok).2
  | .unsubscribe e, st => (unsubscribeHandler st e).2
  | .checkAccess _, st => st
  | .siteStatus, st => st
  | .broadcast p t a, st => (sendLiveNotificationEmailsB p t a st).1

/-- A sequence of Variant B operations, applied left to right. -/
def applyOpsB : List OpB → Store → Store
  | [], st => st
  | op :: rest, st => applyOpsB rest (applyOpB op st)

/-- The live-notification emails a Variant A operation sends: only a
broadcast pass sends any — subscribe's confirmation email is not the live
notification, and site-status sends nothing. -/
def opASent : OpA → Store → List String
  | .broadcast p, st => (sendLiveNotificationEmailsA p st).2
  | _, _ => []

/-- The live-notification emails a Variant B operation sends: only a
broadcast pass sends any. -/
def opBSent : OpB → Store → List String
  | .broadcast p t a, st => (sendLiveNotificationEmailsB p t a st).2
  | _, _ => []

/-- Every record of this email (there is at most one, by the unique index)
has left the awaiting-launch state. -/
def inactiveFor (store : Store) (e : String) : Prop :=
  ∀ s ∈ store, s.email = e → s.isComingSoon = false

/-- Every record of this email is still awaiting launch. -/
def stillAwaiting (store : Store) (e : String) : Prop :=
  ∀ s ∈ store, s.email = e → s.isComingSoon = true

/-- The process state of Variant A: the store, whether the single
`setTimeout` scheduled by `startDelayedEmails()` at startup is still
pending, and every live-notification email sent so far. -/
structure SysA where
  store : Store
  timerPending : Bool
  sentLive : List String

/-- The events that can happen in a Variant A process: the two HTTP routes
and the broadcast timer firing. -/
inductive EventA where
  | subscribe (email : String) (sendOk : Bool)
  | siteStatus
  | timerFire (sendOk : String → Bool)

/-- One event of Variant A.  `startDelayedEmails` registers exactly one
timeout and nothing else ever calls `sendLiveNotificationEmails`, so a
`timerFire` while no timeout is pending has no effect — there is nothing to
fire. -/
def stepA : EventA → SysA → SysA
  | .subscribe e ok, s => { s with store := (subscribeHandler s.store e ok).2 }
  | .siteStatus, s => s
  | .timerFire p, s =>
    if s.timerPending then
      { store := (sendLiveNotificationEmailsA p s.store).1,
        timerPending := false,
        sentLive := s.sentLive ++ (sendLiveNotificationEmailsA p s.store).2 }
    else s

/-- Run a sequence of Variant A events. -/
def runA : List EventA → SysA → SysA
  | [], s => s
  | ev :: rest, s => runA rest (stepA ev s)

/-- Variant A's state at process start: empty collection (as far as this
process created it), the startup timeout pending, nothing sent. -/
def initA : SysA := { store := [], timerPending := true, sentLive := [] }

/-- Whether an event is the broadcast timer firing. -/
def isFireA : EventA → Bool
  | .timerFire _ => true
  | _ => false

/-- How many times the broadcast actually runs along an event sequence:
a `timerFire` only runs it while the timeout is pending. -/
def countFiresA : List EventA → SysA → Nat
  | [], _ => 0
  | ev :: rest, s =>
    (if isFireA ev && s.timerPending then 1 else 0) + countFiresA rest (stepA ev s)

/-- Where a Variant B broadcast task stands, between `await` boundaries:
`toFind` — scheduled, will run the snapshot query, the expiry check and the
first send in its next synchronous segment; `toUpdate current rest` — its
send to `current` has been issued and it will next write `current`'s
`markInactiveB` update and issue the following send; `done` — returned (or
threw to its `catch`). -/
inductive PhaseB where
  | toFind (currentTime : Int) (startTime : JsVal)
  | toUpdate (current : Subscriber) (rest : List Subscriber)
  | done
  deriving Repr, DecidableEq

/-- Walk the snapshot from a given point: skip subscribers already marked
`followUpEmailSent`, then issue the send to the first remaining one (its
email is the third component); a send failure throws to the pass's `catch`,
ending the task. -/
def beginSends (sendOk : String → Bool) (snapshot : List Subscriber)
    (shared : Store) : PhaseB × Store × List String :=
  match snapshot.dropWhile (fun s => s.followUpEmailSent) with
  | [] => (.done, shared, [])
  | s :: rest =>
    if sendOk s.email then (.toUpdate s rest, shared, [s.email])
    else (.done, shared, [])

/-- One synchronous segment of a Variant B broadcast task against the shared
store: returns the task's next phase, the new store, and the emails whose
send was issued during the segment. -/
def stepTask (sendOk : String → Bool) : PhaseB → Store → PhaseB × Store × List String
  | .toFind t a, shared =>
    if jsGt ((jsToNumber a).map (fun t0 => t - t0)) FOLLOW_UP_TIME_LIMIT then
      (.done, shared, [])
    else
      beginSends sendOk (findComingSoon shared) shared
  | .toUpdate s rest, shared =>
    beginSends sendOk rest (markInactiveB shared s.email)
  | .done, shared => (.done, shared, [])

/-- Two broadcast tasks over one shared store, with the multiset of all
live-notification emails issued so far. -/
structure SysB where
  shared : Store
  task1 : PhaseB
  task2 : PhaseB
  sent : List String
  deriving Repr, DecidableEq

/-- The cooperative scheduler resumes one of the two tasks for one
synchronous segment: `true` resumes task 1, `false` task 2. -/
def stepSys (sendOk : String → Bool) (choice : Bool) (sys : SysB) : SysB :=
  if choice then
    let r := stepTask sendOk sys.task1 sys.shared
    { sys with task1 := r.1, shared := r.2.1, sent := sys.sent ++ r.2.2 }
  else
    let r := stepTask sendOk sys.task2 sys.shared
    { sys with task2 := r.1, shared := r.2.1, sent := sys.sent ++ r.2.2 }

/-- Run an interleaving of the two tasks. -/
def runSys (sendOk : String → Bool) : List Bool → SysB → SysB
  | [], sys => sys
  | c :: rest, sys => runSys sendOk rest (stepSys sendOk c sys)

/-- A concrete already-active subscriber, used in evaluation witnesses. -/
def exActive : Subscriber := { email := "a@x", isComingSoon := false, followUpEmailSent := false }

/-- A concrete still-pending subscriber, used in evaluation witnesses. -/
def exPending : Subscriber := { email := "b@x", isComingSoon := true, followUpEmailSent := false }

/-- A concrete pending subscriber with email `a@x`. -/
def exPendingA : Subscriber := { email := "a@x", isComingSoon := true, followUpEmailSent := false }

/-- A send oracle that fails exactly for `a@x`. -/
def exSendFailA : String → Bool := fun e => decide (e ≠ "a@x")

/-- The subscriber `a@x` after a Variant B broadcast marked it. -/
def exMarked : Subscriber := { email := "a@x", isComingSoon := false, followUpEmailSent := true }

/-- Two overlapping broadcast tasks, scheduled by the distinct subscriptions
`a@x` and `b@x` (each passes its own email as `startTime`), both still to
run their snapshot query, over a store in which both are pending. -/
def exSysB : SysB :=
  { shared := [exPendingA, exPending],
    task1 := .toFind 0 (scheduledBroadcastArg "a@x"),
    task2 := .toFind 0 (scheduledBroadcastArg "b@x"),
    sent := [] }

end ComeSoon

namespace ComeSoon

/-- C2.  The site-status endpoint returns 200 with `siteLive` equal to
`countActive store > 0`, and `siteLive` is `true` exactly when some stored
subscriber has `isComingSoon = false` — one activation, by whichever
subscriber, makes the site live for every client. -/
theorem site_status_live_iff_some_active (store : Store) :
    (siteStatusHandler store).status = 200
    ∧ (siteStatusHandler store).siteLive = some (decide (countActive store > 0))
    ∧ ((siteStatusHandler store).siteLive = some true
        ↔ ∃ s ∈ store, s.isComingSoon = false) := by
  refine ⟨rfl, rfl, ?_⟩
  have key : (siteStatusHandler store).siteLive = some true
      ↔ 0 < (findNotComingSoon store).length := by
    simp [siteStatusHandler]
  rw [key]
  constructor
  · intro h
    rcases List.exists_mem_of_length_pos h with ⟨s, hs⟩
    rw [findNotComingSoon, List.mem_filter] at hs
    exact ⟨s, hs.1, by simpa using hs.2⟩
  · rintro ⟨s, hmem, hfalse⟩
    apply List.length_pos.mpr
    apply List.ne_nil_of_mem (a := s)
    rw [findNotComingSoon, List.mem_filter]
    exact ⟨hmem, by simp [hfalse]⟩

/-- C2 witness: evaluated on a one-element store with an active subscriber. -/
theorem site_status_live_iff_some_active_witness :
    (siteStatusHandler [exActive]).siteLive = some true :=
  (site_status_live_iff_some_active [exActive]).2.2.mpr
    ⟨exActive, List.mem_singleton.mpr rfl, rfl⟩

/-- C3.  Subscribing the same email twice leaves exactly one stored record
for it, and the second call hits the duplicate-key path: status 400 with the
already-subscribed message, store unchanged. -/
theorem subscribe_twice_duplicate (store : Store) (e : String) (ok₂ : Bool)
    (hne : e ≠ "") (hnew : ∀ s ∈ store, s.email ≠ e) :
    let st₁ := (subscribeHandler store e true).2
    let r₂ := (subscribeHandler st₁ e ok₂).1
    let st₂ := (subscribeHandler st₁ e ok₂).2
    r₂.status = 400
    ∧ r₂.error = some "This email is already subscribed."
    ∧ st₂ = st₁
    ∧ (st₂.filter (fun s => s.email = e)).length = 1 := by
  intro st₁ r₂ st₂
  have hany : store.any (fun s => s.email = e) = false := by
    simp only [List.any_eq_false, decide_eq_true_eq]
    intro s hs
    exact hnew s hs
  have hst₁ : st₁ = store ++ [newSubscriber e] := by
    simp only [st₁, subscribeHandler, if_neg hne, hany]
    simp
  have hany₁ : st₁.any (fun s => s.email = e) = true := by
    rw [hst₁]
    simp [newSubscriber]
  have hr₂ : r₂ = { status := 400, error := some "This email is already subscribed." } := by
    simp only [r₂, subscribeHandler, if_neg hne, hany₁]
    simp
  have hst₂ : st₂ = st₁ := by
    simp only [st₂, subscribeHandler, if_neg hne, hany₁]
    simp
  refine ⟨by rw [hr₂], by rw [hr₂], hst₂, ?_⟩
  rw [hst₂, hst₁]
  rw [List.filter_append]
  have hfil : store.filter (fun s => decide (s.email = e)) = [] := by
    apply List.filter_eq_nil_iff.mpr
    intro s hs
    simp [hnew s hs]
  rw [hfil]
  simp [newSubscriber]

/-- C3 witness: a concrete double subscription of `a@x` on the empty store. -/
theorem subscribe_twice_duplicate_witness :
    ((subscribeHandler (subscribeHandler [] "a@x" true).2 "a@x" true).1).status = 400 :=
  (subscribe_twice_duplicate [] "a@x" true (by decide) (by intro s hs; cases hs)).1

/-- C10.  When the insert succeeds but the confirmation send then fails,
subscribe answers 500, yet the new record is in the store with
`isComingSoon = true`: the insert is not rolled back, so a 500 from
subscribe does not imply the store is unchanged. -/
theorem subscribe_send_failure_keeps_record (store : Store) (e : String)
    (hne : e ≠ "") (hnew : ∀ s ∈ store, s.email ≠ e) :
    (subscribeHandler store e false).1.status = 500
    ∧ (subscribeHandler store e false).2 = store ++ [newSubscriber e]
    ∧ ∃ s ∈ (subscribeHandler store e false).2,
        s.email = e ∧ s.isComingSoon = true := by
  have hany : store.any (fun s => s.email = e) = false := by
    simp only [List.any_eq_false, decide_eq_true_eq]
    intro s hs
    exact hnew s hs
  refine ⟨?_, ?_, ?_⟩
  · simp [subscribeHandler, if_neg hne, hany]
  · simp [subscribeHandler, if_neg hne, hany]
  · refine ⟨newSubscriber e, ?_, rfl, rfl⟩
    simp [subscribeHandler, if_neg hne, hany]

/-- C10 witness: failing confirmation send for `a@x` on the empty store. -/
theorem subscribe_send_failure_keeps_record_witness :
    (subscribeHandler [] "a@x" false).1.status = 500 :=
  (subscribe_send_failure_keeps_record [] "a@x" (by decide)
    (by intro s hs; cases hs)).1

/-- C7.  With a non-empty email, check-access answers 200 with the derived
`siteLive`; `hasAccess` is the negation of the stored subscriber's
`isComingSoon` when the email is known, and `false` when it is unknown. -/
theorem check_access_spec (store : Store) (e : String) (hne : e ≠ "") :
    (checkAccessHandler store e).status = 200
    ∧ (checkAccessHandler store e).siteLive = some (decide (countActive store > 0))
    ∧ (∀ s, findOne store e = some s →
        (checkAccessHandler store e).hasAccess = some (!s.isComingSoon))
    ∧ (findOne store e = none →
        (checkAccessHandler store e).hasAccess = some false) := by
  refine ⟨?_, ?_, ?_, ?_⟩
  · simp only [checkAccessHandler, if_neg hne]
    cases findOne store e <;> simp
  · simp only [checkAccessHandler, if_neg hne]
    cases findOne store e <;> simp
  · intro s hfind
    simp only [checkAccessHandler, if_neg hne, hfind]
    cases hb : s.isComingSoon <;> simp [hb]
  · intro hfind
    simp only [checkAccessHandler, if_neg hne, hfind]

/-- C7 witness: a known active subscriber and an unknown email. -/
theorem check_access_spec_witness :
    (checkAccessHandler [exActive] "a@x").hasAccess = some true :=
  (check_access_spec [exActive] "a@x" (by decide)).2.2.1 exActive rfl

/-- Variant A's loop processes the longest prefix of the snapshot on which
every send succeeds: the sent emails are that prefix's emails and the store
update is the fold of `markInactiveA` over it; everything from the first
failing send onward is untouched. -/
lemma broadcastLoopA_spec (p : String → Bool) (l : List Subscriber) (store : Store) :
    broadcastLoopA p l store =
      ((l.takeWhile (fun s => p s.email)).foldl
          (fun st s => markInactiveA st s.email) store,
       (l.takeWhile (fun s => p s.email)).map (·.email)) := by
  induction l generalizing store with
  | nil => rfl
  | cons s rest ih =>
    by_cases hp : p s.email
    · simp [broadcastLoopA, hp, List.takeWhile_cons, ih]
    · simp [broadcastLoopA, hp, List.takeWhile_cons]

/-- Variant B's loop processes the longest prefix of the snapshot on which
every subscriber is either already `followUpEmailSent` (skipped) or gets a
successful send; among that prefix, exactly the not-yet-sent ones are sent
and marked. -/
lemma broadcastLoopB_spec (p : String → Bool) (l : List Subscriber) (store : Store) :
    broadcastLoopB p l store =
      (((l.takeWhile (fun s => s.followUpEmailSent || p s.email)).filter
            (fun s => !s.followUpEmailSent)).foldl
          (fun st s => markInactiveB st s.email) store,
       ((l.takeWhile (fun s => s.followUpEmailSent || p s.email)).filter
            (fun s => !s.followUpEmailSent)).map (·.email)) := by
  induction l generalizing store with
  | nil => rfl
  | cons s rest ih =>
    by_cases hf : s.followUpEmailSent
    · simp [broadcastLoopB, hf, List.takeWhile_cons, List.filter_cons, ih]
    · by_cases hp : p s.email
      · simp [broadcastLoopB, hf, hp, List.takeWhile_cons, List.filter_cons, ih]
      · simp [broadcastLoopB, hf, hp, List.takeWhile_cons, List.filter_cons]

/-- C5 counterexample: with two pending subscribers `a@x`, `b@x` and a mail
transport that fails only for `a@x`, the pass sends nothing and changes no
subscriber — the failure for `a@x` aborts the whole batch instead of letting
the iteration continue to `b@x` (whose send would have succeeded). -/
theorem broadcast_failure_not_per_subscriber :
    exSendFailA "b@x" = true
    ∧ sendLiveNotificationEmailsA exSendFailA [exPendingA, exPending] =
        ([exPendingA, exPending], []) := by
  constructor
  · decide
  · rfl

/-- C5 amended: a mail-send failure is caught at the whole-pass level, not
per subscriber.  Each variant's pass processes the snapshot in order and
stops at the first failing send: subscribers before the failure keep their
sent emails and their status updates, while the failing subscriber and all
later ones are left unchanged and unsent. -/
theorem broadcast_failure_aborts_remaining (p : String → Bool) (store : Store) :
    (sendLiveNotificationEmailsA p store =
      (((findComingSoon store).takeWhile (fun s => p s.email)).foldl
          (fun st s => markInactiveA st s.email) store,
       ((findComingSoon store).takeWhile (fun s => p s.email)).map (·.email)))
    ∧ (∀ l st, broadcastLoopB p l st =
        (((l.takeWhile (fun s => s.followUpEmailSent || p s.email)).filter
              (fun s => !s.followUpEmailSent)).foldl
            (fun a s => markInactiveB a s.email) st,
         ((l.takeWhile (fun s => s.followUpEmailSent || p s.email)).filter
              (fun s => !s.followUpEmailSent)).map (·.email))) :=
  ⟨broadcastLoopA_spec p (findComingSoon store) store,
   fun l st => broadcastLoopB_spec p l st⟩

/-- C6.  Variant B's unsubscribe handler references the undefined identifier
`User`; every request therefore raises `ReferenceError`, lands in the
`catch`, and answers 500 with the store untouched — it never returns 404
for an unknown email and never deletes or acknowledges a known one. -/
theorem unsubscribe_always_500 (store : Store) (e : String) :
    (unsubscribeHandler store e).1.status = 500
    ∧ (unsubscribeHandler store e).2 = store
    ∧ (unsubscribeHandler store e).1.success = none := by
  refine ⟨?_, ?_, ?_⟩ <;> simp [unsubscribeHandler, definedModels]

/-- C4.  The delayed broadcast is handed the subscriber's email as its
`startTime`, so `timeElapsed = Date.now() - startTime` is NaN, every
comparison with NaN is false, and the expiry branch is dead: the attempt is
never abandoned, however late it fires.  Concretely, firing vastly after
`FOLLOW_UP_TIME_LIMIT` still sends the notification to a pending
subscriber. -/
theorem delayed_broadcast_expiry_never_fires :
    jsToNumber (scheduledBroadcastArg "a@b.com") = none
    ∧ (∀ (p : String → Bool) (t : Int) (store : Store),
        sendLiveNotificationEmailsB p t (scheduledBroadcastArg "a@b.com") store =
          broadcastLoopB p (findComingSoon store) store)
    ∧ (sendLiveNotificationEmailsB (fun _ => true) (FOLLOW_UP_TIME_LIMIT * 1000000)
        (scheduledBroadcastArg "a@b.com") [exPendingA]).2 = ["a@x"] := by
  refine ⟨by decide, ?_, by decide⟩
  intro p t store
  have h : jsToNumber (scheduledBroadcastArg "a@b.com") = none := by decide
  simp [sendLiveNotificationEmailsB, h, jsGt]

/-- Every element of `markInactiveA st x` is an element of `st`, possibly
with its `isComingSoon` lowered to `false` — and only a record whose email
is the update's target `x` gets lowered. -/
lemma mem_markInactiveA (st : Store) (x : String) (s' : Subscriber)
    (h : s' ∈ markInactiveA st x) :
    s' ∈ st ∨ ∃ s ∈ st, s.email = x ∧ s' = { s with isComingSoon := false } := by
  induction st with
  | nil => cases h
  | cons s rest ih =>
    by_cases hx : s.email = x
    · rw [markInactiveA, if_pos hx] at h
      rcases List.mem_cons.mp h with h1 | h1
      · exact Or.inr ⟨s, List.mem_cons_self s rest, hx, h1⟩
      · exact Or.inl (List.mem_cons_of_mem s h1)
    · rw [markInactiveA, if_neg hx] at h
      rcases List.mem_cons.mp h with h1 | h1
      · exact Or.inl (h1 ▸ List.mem_cons_self s rest)
      · rcases ih h1 with h2 | ⟨s0, hs0, he0, h2⟩
        · exact Or.inl (List.mem_cons_of_mem s h2)
        · exact Or.inr ⟨s0, List.mem_cons_of_mem s hs0, he0, h2⟩

/-- Every element of `markInactiveB st x` is an element of `st`, possibly
with its flip to inactive and its `followUpEmailSent` applied together —
and only a record whose email is the update's target `x` gets flipped. -/
lemma mem_markInactiveB (st : Store) (x : String) (s' : Subscriber)
    (h : s' ∈ markInactiveB st x) :
    s' ∈ st ∨ ∃ s ∈ st, s.email = x
      ∧ s' = { s with isComingSoon := false, followUpEmailSent := true } := by
  induction st with
  | nil => cases h
  | cons s rest ih =>
    by_cases hx : s.email = x
    · rw [markInactiveB, if_pos hx] at h
      rcases List.mem_cons.mp h with h1 | h1
      · exact Or.inr ⟨s, List.mem_cons_self s rest, hx, h1⟩
      · exact Or.inl (List.mem_cons_of_mem s h1)
    · rw [markInactiveB, if_neg hx] at h
      rcases List.mem_cons.mp h with h1 | h1
      · exact Or.inl (h1 ▸ List.mem_cons_self s rest)
      · rcases ih h1 with h2 | ⟨s0, hs0, he0, h2⟩
        · exact Or.inl (List.mem_cons_of_mem s h2)
        · exact Or.inr ⟨s0, List.mem_cons_of_mem s hs0, he0, h2⟩

/-- The update queries keep the collection's emails unchanged. -/
lemma emails_markInactiveA (st : Store) (x : String) :
    emails (markInactiveA st x) = emails st := by
  induction st with
  | nil => rfl
  | cons s rest ih =>
    by_cases hx : s.email = x
    · rw [markInactiveA, if_pos hx]; simp [emails]
    · rw [markInactiveA, if_neg hx]
      simp only [emails, List.map_cons]
      rw [show (markInactiveA rest x).map (·.email) = emails (markInactiveA rest x) from rfl, ih]
      rfl

/-- The update queries keep the collection's emails unchanged. -/
lemma emails_markInactiveB (st : Store) (x : String) :
    emails (markInactiveB st x) = emails st := by
  induction st with
  | nil => rfl
  | cons s rest ih =>
    by_cases hx : s.email = x
    · rw [markInactiveB, if_pos hx]; simp [emails]
    · rw [markInactiveB, if_neg hx]
      simp only [emails, List.map_cons]
      rw [show (markInactiveB rest x).map (·.email) = emails (markInactiveB rest x) from rfl, ih]
      rfl

/-- Folding Variant A's update over a send list keeps the emails unchanged. -/
lemma emails_foldl_markA (L : List Subscriber) (st : Store) :
    emails (L.foldl (fun a s => markInactiveA a s.email) st) = emails st := by
  induction L generalizing st with
  | nil => rfl
  | cons s L ih => rw [List.foldl_cons, ih, emails_markInactiveA]

/-- Folding Variant B's update over a send list keeps the emails unchanged. -/
lemma emails_foldl_markB (L : List Subscriber) (st : Store) :
    emails (L.foldl (fun a s => markInactiveB a s.email) st) = emails st := by
  induction L generalizing st with
  | nil => rfl
  | cons s L ih => rw [List.foldl_cons, ih, emails_markInactiveB]

/-- The update queries never put a record back into the awaiting state. -/
lemma inactiveFor_markInactiveA (st : Store) (x e : String)
    (h : inactiveFor st e) : inactiveFor (markInactiveA st x) e := by
  intro s' hs' he
  rcases mem_markInactiveA st x s' hs' with h1 | ⟨s0, _, _, h1⟩
  · exact h s' h1 he
  · rw [h1]

/-- The update queries never put a record back into the awaiting state. -/
lemma inactiveFor_markInactiveB (st : Store) (x e : String)
    (h : inactiveFor st e) : inactiveFor (markInactiveB st x) e := by
  intro s' hs' he
  rcases mem_markInactiveB st x s' hs' with h1 | ⟨s0, _, _, h1⟩
  · exact h s' h1 he
  · rw [h1]

/-- A whole broadcast pass of Variant A never reactivates a record. -/
lemma inactiveFor_foldl_markA (L : List Subscriber) (st : Store) (e : String)
    (h : inactiveFor st e) :
    inactiveFor (L.foldl (fun a s => markInactiveA a s.email) st) e := by
  induction L generalizing st with
  | nil => exact h
  | cons s L ih => exact ih _ (inactiveFor_markInactiveA st s.email e h)

/-- A whole broadcast pass of Variant B never reactivates a record. -/
lemma inactiveFor_foldl_markB (L : List Subscriber) (st : Store) (e : String)
    (h : inactiveFor st e) :
    inactiveFor (L.foldl (fun a s => markInactiveB a s.email) st) e := by
  induction L generalizing st with
  | nil => exact h
  | cons s L ih => exact ih _ (inactiveFor_markInactiveB st s.email e h)

/-- Every element of a Variant B pass's fold is either an untouched original
or carries the atomic `isComingSoon = false`, `followUpEmailSent = true`
update, in which case its email is in the list the fold ran over. -/
lemma mem_foldl_markB (L : List Subscriber) (st : Store) (s' : Subscriber)
    (h : s' ∈ L.foldl (fun a s => markInactiveB a s.email) st) :
    s' ∈ st ∨ (s'.isComingSoon = false ∧ s'.followUpEmailSent = true
      ∧ s'.email ∈ L.map (·.email)) := by
  induction L generalizing st with
  | nil => exact Or.inl h
  | cons s L ih =>
    rw [List.foldl_cons] at h
    rcases ih (markInactiveB st s.email) h with h1 | ⟨h1, h2, h3⟩
    · rcases mem_markInactiveB st s.email s' h1 with h2 | ⟨s0, _, he0, h2⟩
      · exact Or.inl h2
      · rw [h2]
        refine Or.inr ⟨rfl, rfl, ?_⟩
        rw [List.map_cons]
        exact List.mem_cons.mpr (Or.inl he0)
    · refine Or.inr ⟨h1, h2, ?_⟩
      rw [List.map_cons]
      exact List.mem_cons_of_mem _ h3

/-- Every element of a Variant A pass's fold is either an untouched original
or has been lowered to inactive, in which case its email is in the list the
fold ran over. -/
lemma mem_foldl_markA (L : List Subscriber) (st : Store) (s' : Subscriber)
    (h : s' ∈ L.foldl (fun a s => markInactiveA a s.email) st) :
    s' ∈ st ∨ (s'.isComingSoon = false ∧ s'.email ∈ L.map (·.email)) := by
  induction L generalizing st with
  | nil => exact Or.inl h
  | cons s L ih =>
    rw [List.foldl_cons] at h
    rcases ih (markInactiveA st s.email) h with h1 | ⟨h1, h2⟩
    · rcases mem_markInactiveA st s.email s' h1 with h2 | ⟨s0, _, he0, h2⟩
      · exact Or.inl h2
      · rw [h2]
        refine Or.inr ⟨rfl, ?_⟩
        rw [List.map_cons]
        exact List.mem_cons.mpr (Or.inl he0)
    · refine Or.inr ⟨h1, ?_⟩
      rw [List.map_cons]
      exact List.mem_cons_of_mem _ h2

/-- The subscribe handler either leaves the store alone or appends the
fresh document, the latter only when no record of the email existed. -/
lemma subscribeHandler_snd (st : Store) (e : String) (ok : Bool) :
    (subscribeHandler st e ok).2 = st
    ∨ ((subscribeHandler st e ok).2 = st ++ [newSubscriber e]
        ∧ st.any (fun s => s.email = e) = false) := by
  by_cases h1 : e = ""
  · left; simp [subscribeHandler, h1]
  · by_cases h2 : st.any (fun s => s.email = e) = true
    · left; simp [subscribeHandler, h1, h2]
    · right
      refine ⟨?_, by simpa using h2⟩
      cases ok <;> simp [subscribeHandler, h1, h2]

/-- The unsubscribe handler never changes the store (it always throws on the
undefined `User`). -/
lemma unsubscribeHandler_snd (st : Store) (e : String) :
    (unsubscribeHandler st e).2 = st := by
  simp [unsubscribeHandler, definedModels]

/-- A Variant B broadcast's store effect: either the pass was abandoned, or
it is the fold of the atomic update over some send list of still-awaiting
subscribers drawn (in order) from the store. -/
lemma applyOpB_broadcast_cases (p : String → Bool) (t : Int) (a : JsVal) (st : Store) :
    applyOpB (.broadcast p t a) st = st
    ∨ ∃ L : List Subscriber, List.Sublist L st
        ∧ (∀ s ∈ L, s.isComingSoon = true)
        ∧ applyOpB (.broadcast p t a) st =
            L.foldl (fun acc s => markInactiveB acc s.email) st := by
  by_cases hg : jsGt ((jsToNumber a).map (fun t0 => t - t0)) FOLLOW_UP_TIME_LIMIT = true
  · left; simp [applyOpB, sendLiveNotificationEmailsB, hg]
  · right
    refine ⟨((findComingSoon st).takeWhile
        (fun s => s.followUpEmailSent || p s.email)).filter
        (fun s => !s.followUpEmailSent), ?_, ?_, ?_⟩
    · exact ((List.filter_sublist _).trans (List.takeWhile_sublist _)).trans
        (List.filter_sublist st)
    · intro s hs
      have hs1 : s ∈ findComingSoon st :=
        (((List.filter_sublist _).trans (List.takeWhile_sublist _)).subset) hs
      have := (List.mem_filter.mp hs1).2
      simpa using this
    · simp [applyOpB, sendLiveNotificationEmailsB, hg, broadcastLoopB_spec]

/-- A Variant A broadcast's store effect is the fold of the status update
over some send list drawn (in order) from the store. -/
lemma applyOpA_broadcast_cases (p : String → Bool) (st : Store) :
    ∃ L : List Subscriber, List.Sublist L st
      ∧ applyOpA (.broadcast p) st =
          L.foldl (fun acc s => markInactiveA acc s.email) st := by
  refine ⟨(findComingSoon st).takeWhile (fun s => p s.email), ?_, ?_⟩
  · exact (List.takeWhile_sublist _).trans (List.filter_sublist st)
  · simp [applyOpA, sendLiveNotificationEmailsA, broadcastLoopA_spec]

/-- One Variant B operation keeps an activated email activated: its record
stays present and never returns to the awaiting state. -/
lemma applyOpB_active_persists (op : OpB) (st : Store) (e : String)
    (hmem : e ∈ emails st) (hin : inactiveFor st e) :
    e ∈ emails (applyOpB op st) ∧ inactiveFor (applyOpB op st) e := by
  cases op with
  | subscribe e' ok =>
    rcases subscribeHandler_snd st e' ok with h | ⟨h, hany⟩
    · rw [applyOpB, h]; exact ⟨hmem, hin⟩
    · rw [applyOpB, h]
      constructor
      · rw [emails, List.map_append]
        exact List.mem_append_left _ hmem
      · intro s hs he
        rcases List.mem_append.mp hs with h1 | h1
        · exact hin s h1 he
        · exfalso
          rcases List.mem_singleton.mp h1 with rfl
          rcases List.mem_map.mp hmem with ⟨s0, hs0, hs0e⟩
          have hall := List.any_eq_false.mp hany s0 hs0
          rw [hs0e] at hall
          exact hall (by simpa [newSubscriber] using he.symm)
  | unsubscribe e' =>
    rw [applyOpB, unsubscribeHandler_snd]; exact ⟨hmem, hin⟩
  | checkAccess e' => exact ⟨hmem, hin⟩
  | siteStatus => exact ⟨hmem, hin⟩
  | broadcast p t a =>
    rcases applyOpB_broadcast_cases p t a st with h | ⟨L, _, _, h⟩
    · rw [h]; exact ⟨hmem, hin⟩
    · rw [h]
      exact ⟨by rw [emails_foldl_markB]; exact hmem,
        inactiveFor_foldl_markB L st e hin⟩

/-- One Variant A operation keeps an activated email activated. -/
lemma applyOpA_active_persists (op : OpA) (st : Store) (e : String)
    (hmem : e ∈ emails st) (hin : inactiveFor st e) :
    e ∈ emails (applyOpA op st) ∧ inactiveFor (applyOpA op st) e := by
  cases op with
  | subscribe e' ok =>
    rcases subscribeHandler_snd st e' ok with h | ⟨h, hany⟩
    · rw [applyOpA, h]; exact ⟨hmem, hin⟩
    · rw [applyOpA, h]
      constructor
      · rw [emails, List.map_append]
        exact List.mem_append_left _ hmem
      · intro s hs he
        rcases List.mem_append.mp hs with h1 | h1
        · exact hin s h1 he
        · exfalso
          rcases List.mem_singleton.mp h1 with rfl
          rcases List.mem_map.mp hmem with ⟨s0, hs0, hs0e⟩
          have hall := List.any_eq_false.mp hany s0 hs0
          rw [hs0e] at hall
          exact hall (by simpa [newSubscriber] using he.symm)
  | siteStatus => exact ⟨hmem, hin⟩
  | broadcast p =>
    rcases applyOpA_broadcast_cases p st with ⟨L, _, h⟩
    rw [h]
    exact ⟨by rw [emails_foldl_markA]; exact hmem,
      inactiveFor_foldl_markA L st e hin⟩

/-- Along any Variant B operation sequence, an activated email stays
present and activated. -/
lemma applyOpsB_active_persists (ops : List OpB) (st : Store) (e : String)
    (hmem : e ∈ emails st) (hin : inactiveFor st e) :
    e ∈ emails (applyOpsB ops st) ∧ inactiveFor (applyOpsB ops st) e := by
  induction ops generalizing st with
  | nil => exact ⟨hmem, hin⟩
  | cons op ops ih =>
    rcases applyOpB_active_persists op st e hmem hin with ⟨h1, h2⟩
    exact ih (applyOpB op st) h1 h2

/-- Along any Variant A operation sequence, an activated email stays
present and activated. -/
lemma applyOpsA_active_persists (ops : List OpA) (st : Store) (e : String)
    (hmem : e ∈ emails st) (hin : inactiveFor st e) :
    e ∈ emails (applyOpsA ops st) ∧ inactiveFor (applyOpsA ops st) e := by
  induction ops generalizing st with
  | nil => exact ⟨hmem, hin⟩
  | cons op ops ih =>
    rcases applyOpA_active_persists op st e hmem hin with ⟨h1, h2⟩
    exact ih (applyOpA op st) h1 h2

/-- A record whose email was absent before an operation can only be the one
subscribe creates, and that one is created awaiting launch. -/
lemma applyOpB_new_record_awaits (op : OpB) (st : Store) (s' : Subscriber)
    (hmem : s' ∈ applyOpB op st) (hnew : s'.email ∉ emails st) :
    s'.isComingSoon = true := by
  cases op with
  | subscribe e' ok =>
    rcases subscribeHandler_snd st e' ok with h | ⟨h, _⟩
    · rw [applyOpB, h] at hmem
      exact absurd (List.mem_map_of_mem (·.email) hmem) hnew
    · rw [applyOpB, h] at hmem
      rcases List.mem_append.mp hmem with h1 | h1
      · exact absurd (List.mem_map_of_mem (·.email) h1) hnew
      · rcases List.mem_singleton.mp h1 with rfl; rfl
  | unsubscribe e' =>
    rw [applyOpB, unsubscribeHandler_snd] at hmem
    exact absurd (List.mem_map_of_mem (·.email) hmem) hnew
  | checkAccess e' =>
    exact absurd (List.mem_map_of_mem (·.email) hmem) hnew
  | siteStatus =>
    exact absurd (List.mem_map_of_mem (·.email) hmem) hnew
  | broadcast p t a =>
    exfalso
    apply hnew
    have : s'.email ∈ emails (applyOpB (.broadcast p t a) st) :=
      List.mem_map_of_mem (·.email) hmem
    rcases applyOpB_broadcast_cases p t a st with h | ⟨L, _, _, h⟩
    · rwa [h] at this
    · rwa [h, emails_foldl_markB] at this

/-- A record that flipped to inactive during a single Variant B operation
carries `followUpEmailSent = true`: the two fields are written by the same
`findOneAndUpdate`. -/
lemma applyOpB_flip_is_atomic (op : OpB) (st : Store) (s' : Subscriber)
    (hmem : s' ∈ applyOpB op st) (hfalse : s'.isComingSoon = false)
    (hbefore : ∀ s ∈ st, s.email = s'.email → s.isComingSoon = true) :
    s'.followUpEmailSent = true := by
  have hnotin : s' ∉ st := fun h =>
    by rw [hbefore s' h rfl] at hfalse; cases hfalse
  cases op with
  | subscribe e' ok =>
    rcases subscribeHandler_snd st e' ok with h | ⟨h, _⟩
    · rw [applyOpB, h] at hmem; exact absurd hmem hnotin
    · rw [applyOpB, h] at hmem
      rcases List.mem_append.mp hmem with h1 | h1
      · exact absurd h1 hnotin
      · rcases List.mem_singleton.mp h1 with rfl; cases hfalse
  | unsubscribe e' =>
    rw [applyOpB, unsubscribeHandler_snd] at hmem
    exact absurd hmem hnotin
  | checkAccess e' => exact absurd hmem hnotin
  | siteStatus => exact absurd hmem hnotin
  | broadcast p t a =>
    rcases applyOpB_broadcast_cases p t a st with h | ⟨L, _, _, h⟩
    · rw [h] at hmem; exact absurd hmem hnotin
    · rw [h] at hmem
      rcases mem_foldl_markB L st s' hmem with h1 | ⟨_, h1, _⟩
      · exact absurd h1 hnotin
      · exact h1

/-- Once the timeout is no longer pending, no event makes it pending again. -/
lemma stepA_not_pending (ev : EventA) (s : SysA) (h : s.timerPending = false) :
    (stepA ev s).timerPending = false := by
  cases ev with
  | subscribe e ok => exact h
  | siteStatus => exact h
  | timerFire p => simp [stepA, h]

/-- Once the timeout is no longer pending, no event sends live notifications. -/
lemma stepA_not_pending_sentLive (ev : EventA) (s : SysA) (h : s.timerPending = false) :
    (stepA ev s).sentLive = s.sentLive := by
  cases ev with
  | subscribe e ok => rfl
  | siteStatus => rfl
  | timerFire p => simp [stepA, h]

/-- HTTP events do not consume the pending timeout. -/
lemma stepA_nonfire_pending (ev : EventA) (s : SysA) (h : isFireA ev = false) :
    (stepA ev s).timerPending = s.timerPending := by
  cases ev with
  | subscribe _ _ => rfl
  | siteStatus => rfl
  | timerFire _ => simp [isFireA] at h

/-- After the timeout has fired, the broadcast never runs again. -/
lemma countFiresA_eq_zero (events : List EventA) (s : SysA)
    (h : s.timerPending = false) : countFiresA events s = 0 := by
  induction events generalizing s with
  | nil => rfl
  | cons ev rest ih =>
    rw [countFiresA, h]
    simp only [Bool.and_false, Bool.false_eq_true, if_false, Nat.zero_add]
    exact ih (stepA ev s) (stepA_not_pending ev s h)

/-- The broadcast runs at most once along any event sequence. -/
lemma countFiresA_le_one (events : List EventA) (s : SysA) :
    countFiresA events s ≤ 1 := by
  induction events generalizing s with
  | nil => exact Nat.zero_le 1
  | cons ev rest ih =>
    rw [countFiresA]
    by_cases hf : (isFireA ev && s.timerPending) = true
    · rw [if_pos hf]
      have hpend : (stepA ev s).timerPending = false := by
        rcases (by simpa using hf : isFireA ev = true ∧ s.timerPending = true)
          with ⟨h1, h2⟩
        cases ev with
        | timerFire p => simp [stepA, h2]
        | subscribe _ _ => simp [isFireA] at h1
        | siteStatus => simp [isFireA] at h1
      rw [countFiresA_eq_zero rest _ hpend]
    · rw [if_neg hf]
      simpa using ih (stepA ev s)

/-- From the start state, any event sequence containing a timer firing runs
the broadcast exactly once. -/
lemma countFiresA_eq_one (events : List EventA) (s : SysA)
    (hpend : s.timerPending = true) (hfire : ∃ ev ∈ events, isFireA ev = true) :
    countFiresA events s = 1 := by
  induction events generalizing s with
  | nil => rcases hfire with ⟨ev, h, _⟩; cases h
  | cons ev rest ih =>
    by_cases hf : isFireA ev = true
    · have hpend' : (stepA ev s).timerPending = false := by
        cases ev with
        | timerFire p => simp [stepA, hpend]
        | subscribe _ _ => simp [isFireA] at hf
        | siteStatus => simp [isFireA] at hf
      rw [countFiresA, hf, hpend]
      simp [countFiresA_eq_zero rest _ hpend']
    · have hpend' : (stepA ev s).timerPending = true := by
        rw [stepA_nonfire_pending ev s (by simpa using hf)]; exact hpend
      have hfire' : ∃ e0 ∈ rest, isFireA e0 = true := by
        rcases hfire with ⟨e0, he0, hf0⟩
        rcases List.mem_cons.mp he0 with rfl | h1
        · exact absurd hf0 hf
        · exact ⟨e0, h1, hf0⟩
      rw [countFiresA]
      simp only [hf, Bool.false_and, Bool.false_eq_true, if_false, Nat.zero_add]
      exact ih (stepA ev s) hpend' hfire'

/-- After the timeout has fired, the sent-live list is frozen and a
still-awaiting email stays awaiting through any further events. -/
lemma runA_after_fire (events : List EventA) (s : SysA) (e : String)
    (h : s.timerPending = false) :
    (runA events s).sentLive = s.sentLive
    ∧ (stillAwaiting s.store e → stillAwaiting (runA events s).store e) := by
  induction events generalizing s with
  | nil => exact ⟨rfl, fun hh => hh⟩
  | cons ev rest ih =>
    have h' : (stepA ev s).timerPending = false := stepA_not_pending ev s h
    rcases ih (stepA ev s) h' with ⟨h1, h3⟩
    refine ⟨?_, ?_⟩
    · rw [runA, h1, stepA_not_pending_sentLive ev s h]
    · intro hsa
      apply h3
      cases ev with
      | subscribe e' ok =>
        have hst : (stepA (.subscribe e' ok) s).store =
            (subscribeHandler s.store e' ok).2 := rfl
        rcases subscribeHandler_snd s.store e' ok with hs | ⟨hs, _⟩
        · rw [hst, hs]; exact hsa
        · rw [hst, hs]
          intro s0 hs0 he0
          rcases List.mem_append.mp hs0 with hh | hh
          · exact hsa s0 hh he0
          · rcases List.mem_singleton.mp hh with rfl; rfl
      | siteStatus => exact hsa
      | timerFire p =>
        have hst : stepA (.timerFire p) s = s := by simp [stepA, h]
        rw [hst]; exact hsa

/-- C8.  Variant A's broadcast timer is one-shot: along any event sequence
the broadcast runs at most once; from process start it runs exactly once
when the timeout fires; and once it has fired, no live notification is
ever sent again and a subscriber then still awaiting launch — in
particular one created after the firing — stays awaiting forever. -/
theorem one_shot_broadcast_timer :
    (∀ (events : List EventA) (s : SysA), countFiresA events s ≤ 1)
    ∧ (∀ events : List EventA, (∃ ev ∈ events, isFireA ev = true) →
        countFiresA events initA = 1)
    ∧ (∀ (events : List EventA) (s : SysA) (e : String),
        s.timerPending = false →
        (runA events s).sentLive = s.sentLive
        ∧ (stillAwaiting s.store e → stillAwaiting (runA events s).store e)) :=
  ⟨countFiresA_le_one,
   fun events h => countFiresA_eq_one events initA rfl h,
   fun events s e h => runA_after_fire events s e h⟩

/-- C8 witness: the single startup timeout fires once, and after it has
fired a fresh subscriber's state is frozen. -/
theorem one_shot_broadcast_timer_witness :
    countFiresA [EventA.timerFire (fun _ => true)] initA = 1
    ∧ (runA [EventA.subscribe "b@x" true]
        { store := [], timerPending := false, sentLive := ["a@x"] }).sentLive
        = ["a@x"] := by
  constructor
  · exact one_shot_broadcast_timer.2.1 [EventA.timerFire (fun _ => true)]
      ⟨EventA.timerFire (fun _ => true), List.mem_singleton.mpr rfl, rfl⟩
  · exact (one_shot_broadcast_timer.2.2 [EventA.subscribe "b@x" true]
      { store := [], timerPending := false, sentLive := ["a@x"] } "b@x" rfl).1

/-- A Variant B pass either does nothing, or its effect is the atomic
update folded over a send list of still-awaiting subscribers drawn (in
order) from the store, and its sent emails are exactly that list's emails. -/
lemma passB_cases (p : String → Bool) (t : Int) (a : JsVal) (st : Store) :
    sendLiveNotificationEmailsB p t a st = (st, [])
    ∨ ∃ L : List Subscriber, List.Sublist L st
        ∧ (∀ s ∈ L, s.isComingSoon = true)
        ∧ sendLiveNotificationEmailsB p t a st =
            (L.foldl (fun acc s => markInactiveB acc s.email) st, L.map (·.email)) := by
  by_cases hg : jsGt ((jsToNumber a).map (fun t0 => t - t0)) FOLLOW_UP_TIME_LIMIT = true
  · left; simp [sendLiveNotificationEmailsB, hg]
  · right
    refine ⟨((findComingSoon st).takeWhile
        (fun s => s.followUpEmailSent || p s.email)).filter
        (fun s => !s.followUpEmailSent), ?_, ?_, ?_⟩
    · exact ((List.filter_sublist _).trans (List.takeWhile_sublist _)).trans
        (List.filter_sublist st)
    · intro s hs
      have hs1 : s ∈ findComingSoon st :=
        (((List.filter_sublist _).trans (List.takeWhile_sublist _)).subset) hs
      simpa using (List.mem_filter.mp hs1).2
    · simp [sendLiveNotificationEmailsB, hg, broadcastLoopB_spec]

/-- A pass does not change the collection's emails. -/
lemma passB_emails (p : String → Bool) (t : Int) (a : JsVal) (st : Store) :
    emails (sendLiveNotificationEmailsB p t a st).1 = emails st := by
  rcases passB_cases p t a st with h | ⟨L, _, _, h⟩
  · rw [h]
  · rw [h]; exact emails_foldl_markB L st

/-- With the unique email index, one pass sends to each email at most once. -/
lemma passB_sent_nodup (p : String → Bool) (t : Int) (a : JsVal) (st : Store)
    (hnd : (emails st).Nodup) : (sendLiveNotificationEmailsB p t a st).2.Nodup := by
  rcases passB_cases p t a st with h | ⟨L, hsub, _, h⟩
  · rw [h]; exact List.nodup_nil
  · rw [h]
    exact hnd.sublist (hsub.map (·.email))

/-- The single mark update deactivates every record of its target email
(there is exactly one, by the unique index). -/
lemma markB_inactiveFor_target (st : Store) (x : String)
    (hnd : (emails st).Nodup) : inactiveFor (markInactiveB st x) x := by
  induction st with
  | nil => intro s hs _; cases hs
  | cons s rest ih =>
    have heq : emails (s :: rest) = s.email :: emails rest := rfl
    rw [heq] at hnd
    have hnd' : (emails rest).Nodup := (List.nodup_cons.mp hnd).2
    by_cases hx : s.email = x
    · intro s' hs' he'
      rw [markInactiveB, if_pos hx] at hs'
      rcases List.mem_cons.mp hs' with rfl | h1
      · rfl
      · exfalso
        have hxin : x ∈ emails rest := by
          rw [← he']; exact List.mem_map_of_mem (·.email) h1
        have hnotin : s.email ∉ emails rest := (List.nodup_cons.mp hnd).1
        rw [hx] at hnotin
        exact hnotin hxin
    · intro s' hs' he'
      rw [markInactiveB, if_neg hx] at hs'
      rcases List.mem_cons.mp hs' with rfl | h1
      · exact absurd he' hx
      · exact ih hnd' s' h1 he'

/-- After a pass's fold, every email it sent to is deactivated. -/
lemma foldl_markB_sent_inactive (L : List Subscriber) (st : Store) (e : String)
    (hnd : (emails st).Nodup) (he : e ∈ L.map (·.email)) :
    inactiveFor (L.foldl (fun acc s => markInactiveB acc s.email) st) e := by
  induction L generalizing st with
  | nil => cases he
  | cons s L ih =>
    rw [List.foldl_cons]
    rw [List.map_cons] at he
    rcases List.mem_cons.mp he with rfl | h1
    · exact inactiveFor_foldl_markB L (markInactiveB st s.email) s.email
        (markB_inactiveFor_target st s.email hnd)
    · exact ih (markInactiveB st s.email)
        (by rw [emails_markInactiveB]; exact hnd) h1

/-- Every email a pass sent to is deactivated in the pass's final store. -/
lemma passB_sent_inactive (p : String → Bool) (t : Int) (a : JsVal) (st : Store)
    (hnd : (emails st).Nodup) (e : String)
    (he : e ∈ (sendLiveNotificationEmailsB p t a st).2) :
    inactiveFor (sendLiveNotificationEmailsB p t a st).1 e := by
  rcases passB_cases p t a st with h | ⟨L, _, _, h⟩
  · rw [h] at he; cases he
  · rw [h] at he ⊢
    exact foldl_markB_sent_inactive L st e hnd he

/-- A pass only sends to emails whose record was still awaiting launch. -/
lemma passB_sent_was_pending (p : String → Bool) (t : Int) (a : JsVal) (st : Store)
    (e : String) (he : e ∈ (sendLiveNotificationEmailsB p t a st).2) :
    ∃ s ∈ st, s.email = e ∧ s.isComingSoon = true := by
  rcases passB_cases p t a st with h | ⟨L, hsub, hpend, h⟩
  · rw [h] at he; cases he
  · rw [h] at he
    rcases List.mem_map.mp he with ⟨s, hs, rfl⟩
    exact ⟨s, hsub.subset hs, rfl, hpend s hs⟩

/-- C9 counterexample: two overlapping broadcast tasks, scheduled by the
distinct subscriptions `a@x` and `b@x`, both run their snapshot query and
their first guard check before either writes back; under this interleaving
the subscriber `a@x` is sent the live notification twice. -/
theorem overlapping_passes_duplicate_send :
    exSysB.task1 ≠ exSysB.task2
    ∧ ((runSys (fun _ => true) [true, false] exSysB).sent).count "a@x" = 2 := by
  constructor
  · decide
  · decide

/-- C9 amended: the `followUpEmailSent` / `isComingSoon` guard de-duplicates
only non-overlapping passes.  When one pass completes before the other
starts (so the documented race window with its interleaved check-send-write
is not exercised), no email receives more than one live notification across
the two passes. -/
theorem sequential_passes_no_duplicate_send (p1 p2 : String → Bool) (t1 t2 : Int)
    (a1 a2 : JsVal) (store : Store) (e : String) (hnd : (emails store).Nodup) :
    ((sendLiveNotificationEmailsB p1 t1 a1 store).2
      ++ (sendLiveNotificationEmailsB p2 t2 a2
            (sendLiveNotificationEmailsB p1 t1 a1 store).1).2).count e ≤ 1 := by
  have hnd1 : (emails (sendLiveNotificationEmailsB p1 t1 a1 store).1).Nodup := by
    rw [passB_emails]; exact hnd
  rw [List.count_append]
  by_cases hmem : e ∈ (sendLiveNotificationEmailsB p1 t1 a1 store).2
  · have h1 : ((sendLiveNotificationEmailsB p1 t1 a1 store).2).count e ≤ 1 :=
      List.nodup_iff_count_le_one.mp (passB_sent_nodup p1 t1 a1 store hnd) e
    have h2 : ((sendLiveNotificationEmailsB p2 t2 a2
        (sendLiveNotificationEmailsB p1 t1 a1 store).1).2).count e = 0 := by
      rw [List.count_eq_zero]
      intro hmem2
      rcases passB_sent_was_pending p2 t2 a2
        (sendLiveNotificationEmailsB p1 t1 a1 store).1 e hmem2 with ⟨s, hs, hse, hpend⟩
      have hdead := passB_sent_inactive p1 t1 a1 store hnd e hmem s hs hse
      rw [hpend] at hdead; cases hdead
    omega
  · have h1 : ((sendLiveNotificationEmailsB p1 t1 a1 store).2).count e = 0 :=
      List.count_eq_zero.mpr hmem
    have h2 : ((sendLiveNotificationEmailsB p2 t2 a2
        (sendLiveNotificationEmailsB p1 t1 a1 store).1).2).count e ≤ 1 :=
      List.nodup_iff_count_le_one.mp (passB_sent_nodup p2 t2 a2
        (sendLiveNotificationEmailsB p1 t1 a1 store).1 hnd1) e
    omega

/-- C9 witness: two sequential passes over two pending subscribers send
`a@x` at most one notification. -/
theorem sequential_passes_no_duplicate_send_witness :
    ((sendLiveNotificationEmailsB (fun _ => true) 0 (JsVal.num 0)
        [exPendingA, exPending]).2
      ++ (sendLiveNotificationEmailsB (fun _ => true) 0 (JsVal.num 0)
            (sendLiveNotificationEmailsB (fun _ => true) 0 (JsVal.num 0)
              [exPendingA, exPending]).1).2).count "a@x" ≤ 1 :=
  sequential_passes_no_duplicate_send (fun _ => true) (fun _ => true) 0 0
    (JsVal.num 0) (JsVal.num 0) [exPendingA, exPending] "a@x" (by decide)

/-- A Variant A pass in closed form: its store effect is the status update
folded over the successful-send prefix of the pending snapshot, and its sent
emails are exactly that prefix's emails. -/
lemma passA_eq (p : String → Bool) (st : Store) :
    sendLiveNotificationEmailsA p st =
      (((findComingSoon st).takeWhile (fun s => p s.email)).foldl
          (fun acc s => markInactiveA acc s.email) st,
       ((findComingSoon st).takeWhile (fun s => p s.email)).map (·.email)) :=
  broadcastLoopA_spec p (findComingSoon st) st

/-- Every email a Variant A pass reports as sent had a successful transport
send: only `sendOk` subscribers enter the sent list. -/
lemma passA_sent_success (p : String → Bool) (st : Store) (e : String)
    (he : e ∈ (sendLiveNotificationEmailsA p st).2) : p e = true := by
  rw [passA_eq] at he
  rcases List.mem_map.mp he with ⟨s, hs, rfl⟩
  have h1 := List.mem_takeWhile_imp hs
  simpa using h1

/-- Every email a Variant B pass reports as sent had a successful transport
send: a subscriber enters the sent list only when not yet `followUpEmailSent`
and with `sendOk` true for its email. -/
lemma passB_sent_success (p : String → Bool) (t : Int) (a : JsVal) (st : Store)
    (e : String) (he : e ∈ (sendLiveNotificationEmailsB p t a st).2) : p e = true := by
  by_cases hg : jsGt ((jsToNumber a).map (fun t0 => t - t0)) FOLLOW_UP_TIME_LIMIT = true
  · simp [sendLiveNotificationEmailsB, hg] at he
  · have hsent : (sendLiveNotificationEmailsB p t a st).2 =
        (((findComingSoon st).takeWhile
            (fun s => s.followUpEmailSent || p s.email)).filter
            (fun s => !s.followUpEmailSent)).map (·.email) := by
      simp [sendLiveNotificationEmailsB, hg, broadcastLoopB_spec]
    rw [hsent] at he
    rcases List.mem_map.mp he with ⟨s, hs, rfl⟩
    have hr := (List.mem_filter.mp hs).2
    have hq := List.mem_takeWhile_imp (List.mem_filter.mp hs).1
    simp only [Bool.not_eq_true'] at hr
    rw [hr] at hq
    simpa using hq

/-- A record whose email was absent before a Variant A operation can only be
the one subscribe creates, and that one is created awaiting launch. -/
lemma applyOpA_new_record_awaits (op : OpA) (st : Store) (s' : Subscriber)
    (hmem : s' ∈ applyOpA op st) (hnew : s'.email ∉ emails st) :
    s'.isComingSoon = true := by
  cases op with
  | subscribe e' ok =>
    rcases subscribeHandler_snd st e' ok with h | ⟨h, _⟩
    · rw [applyOpA, h] at hmem
      exact absurd (List.mem_map_of_mem (·.email) hmem) hnew
    · rw [applyOpA, h] at hmem
      rcases List.mem_append.mp hmem with h1 | h1
      · exact absurd (List.mem_map_of_mem (·.email) h1) hnew
      · rcases List.mem_singleton.mp h1 with rfl; rfl
  | siteStatus =>
    exact absurd (List.mem_map_of_mem (·.email) hmem) hnew
  | broadcast p =>
    exfalso
    apply hnew
    have hm : s'.email ∈ emails (applyOpA (.broadcast p) st) :=
      List.mem_map_of_mem (·.email) hmem
    rcases applyOpA_broadcast_cases p st with ⟨L, _, h⟩
    rwa [h, emails_foldl_markA] at hm

/-- In Variant B, a record flips from awaiting to inactive during an
operation only when that operation is a broadcast pass that successfully
sent the live notification to that email: the email is in the pass's sent
list. -/
lemma applyOpB_flip_via_send (op : OpB) (st : Store) (e : String)
    (hsa : stillAwaiting st e)
    (hflip : ∃ s' ∈ applyOpB op st, s'.email = e ∧ s'.isComingSoon = false) :
    e ∈ opBSent op st := by
  rcases hflip with ⟨s', hs', he', hfalse⟩
  have hnotin : s' ∉ st := fun h => by rw [hsa s' h he'] at hfalse; cases hfalse
  cases op with
  | subscribe e' ok =>
    rcases subscribeHandler_snd st e' ok with h | ⟨h, _⟩
    · rw [applyOpB, h] at hs'; exact absurd hs' hnotin
    · rw [applyOpB, h] at hs'
      rcases List.mem_append.mp hs' with h1 | h1
      · exact absurd h1 hnotin
      · rcases List.mem_singleton.mp h1 with rfl; cases hfalse
  | unsubscribe e' =>
    rw [applyOpB, unsubscribeHandler_snd] at hs'
    exact absurd hs' hnotin
  | checkAccess e' => exact absurd hs' hnotin
  | siteStatus => exact absurd hs' hnotin
  | broadcast p t a =>
    have happ : applyOpB (.broadcast p t a) st =
        (sendLiveNotificationEmailsB p t a st).1 := rfl
    rcases passB_cases p t a st with h | ⟨L, _, _, h⟩
    · rw [happ, h] at hs'
      exact absurd hs' hnotin
    · rw [happ, h] at hs'
      replace hs' : s' ∈ L.foldl (fun acc s => markInactiveB acc s.email) st := hs'
      rcases mem_foldl_markB L st s' hs' with h1 | ⟨_, _, h1⟩
      · exact absurd h1 hnotin
      · show e ∈ (sendLiveNotificationEmailsB p t a st).2
        rw [h, ← he']
        exact h1

/-- In Variant A, a record flips from awaiting to inactive during an
operation only when that operation is the broadcast pass and it successfully
sent the live notification to that email. -/
lemma applyOpA_flip_via_send (op : OpA) (st : Store) (e : String)
    (hsa : stillAwaiting st e)
    (hflip : ∃ s' ∈ applyOpA op st, s'.email = e ∧ s'.isComingSoon = false) :
    e ∈ opASent op st := by
  rcases hflip with ⟨s', hs', he', hfalse⟩
  have hnotin : s' ∉ st := fun h => by rw [hsa s' h he'] at hfalse; cases hfalse
  cases op with
  | subscribe e' ok =>
    rcases subscribeHandler_snd st e' ok with h | ⟨h, _⟩
    · rw [applyOpA, h] at hs'; exact absurd hs' hnotin
    · rw [applyOpA, h] at hs'
      rcases List.mem_append.mp hs' with h1 | h1
      · exact absurd h1 hnotin
      · rcases List.mem_singleton.mp h1 with rfl; cases hfalse
  | siteStatus => exact absurd hs' hnotin
  | broadcast p =>
    have happ : applyOpA (.broadcast p) st =
        (sendLiveNotificationEmailsA p st).1 := rfl
    rw [happ, passA_eq] at hs'
    replace hs' : s' ∈ ((findComingSoon st).takeWhile (fun s => p s.email)).foldl
        (fun acc s => markInactiveA acc s.email) st := hs'
    rcases mem_foldl_markA _ st s' hs' with h1 | ⟨_, h1⟩
    · exact absurd h1 hnotin
    · show e ∈ (sendLiveNotificationEmailsA p st).2
      rw [passA_eq, ← he']
      exact h1

/-- C1.  In both variants, `isComingSoon` (the spec's `isAwaitingLaunch`)
starts `true` at creation, and once it is `false` for an email no later
operation ever returns that email to the awaiting state: ACTIVE is
terminal.  A flip from awaiting to inactive happens only through a
broadcast pass that successfully delivered the live notification to that
email — in either variant the flipped email is in the operation's
live-notification sent list, and every email in a sent list had a
successful transport send.  In Variant B, any record that flips gets
`followUpEmailSent = true` in the same single update. -/
theorem awaiting_launch_flag_terminal :
    (∀ (ops : List OpB) (store : Store) (e : String),
        e ∈ emails store → inactiveFor store e →
        e ∈ emails (applyOpsB ops store) ∧ inactiveFor (applyOpsB ops store) e)
    ∧ (∀ (ops : List OpA) (store : Store) (e : String),
        e ∈ emails store → inactiveFor store e →
        e ∈ emails (applyOpsA ops store) ∧ inactiveFor (applyOpsA ops store) e)
    ∧ (∀ (op : OpB) (store : Store) (s' : Subscriber),
        s' ∈ applyOpB op store → s'.email ∉ emails store → s'.isComingSoon = true)
    ∧ (∀ (op : OpA) (store : Store) (s' : Subscriber),
        s' ∈ applyOpA op store → s'.email ∉ emails store → s'.isComingSoon = true)
    ∧ (∀ (op : OpB) (store : Store) (s' : Subscriber),
        s' ∈ applyOpB op store → s'.isComingSoon = false →
        (∀ s ∈ store, s.email = s'.email → s.isComingSoon = true) →
        s'.followUpEmailSent = true)
    ∧ (∀ (op : OpB) (store : Store) (e : String),
        stillAwaiting store e →
        (∃ s' ∈ applyOpB op store, s'.email = e ∧ s'.isComingSoon = false) →
        e ∈ opBSent op store)
    ∧ (∀ (op : OpA) (store : Store) (e : String),
        stillAwaiting store e →
        (∃ s' ∈ applyOpA op store, s'.email = e ∧ s'.isComingSoon = false) →
        e ∈ opASent op store)
    ∧ (∀ (p : String → Bool) (t : Int) (a : JsVal) (store : Store) (e : String),
        e ∈ opBSent (OpB.broadcast p t a) store → p e = true)
    ∧ (∀ (p : String → Bool) (store : Store) (e : String),
        e ∈ opASent (OpA.broadcast p) store → p e = true) :=
  ⟨applyOpsB_active_persists, applyOpsA_active_persists,
   applyOpB_new_record_awaits, applyOpA_new_record_awaits,
   applyOpB_flip_is_atomic, applyOpB_flip_via_send, applyOpA_flip_via_send,
   fun p t a store e h => passB_sent_success p t a store e h,
   fun p store e h => passA_sent_success p store e h⟩

/-- C1 witness: an activated `a@x` stays activated across a subscribe of
`b@x`; the record `b@x` subscribe creates is awaiting launch; and the flip
of the pending `a@x` by a concrete broadcast pass puts `a@x` in that pass's
sent list. -/
theorem awaiting_launch_flag_terminal_witness :
    ("a@x" ∈ emails (applyOpsB [OpB.subscribe "b@x" true] [exActive])
      ∧ inactiveFor (applyOpsB [OpB.subscribe "b@x" true] [exActive]) "a@x")
    ∧ (newSubscriber "b@x").isComingSoon = true
    ∧ "a@x" ∈ opBSent (OpB.broadcast (fun _ => true) 0 (JsVal.num 0)) [exPendingA] := by
  refine ⟨?_, ?_, ?_⟩
  · exact awaiting_launch_flag_terminal.1 [OpB.subscribe "b@x" true] [exActive] "a@x"
      (by simp [emails, exActive])
      (by intro s hs he; rcases List.mem_singleton.mp hs with rfl; rfl)
  · exact awaiting_launch_flag_terminal.2.2.1 (OpB.subscribe "b@x" true) [exActive]
      (newSubscriber "b@x")
      (by simp [applyOpB, subscribeHandler, exActive, newSubscriber])
      (by simp [emails, exActive, newSubscriber])
  · exact awaiting_launch_flag_terminal.2.2.2.2.2.1
      (OpB.broadcast (fun _ => true) 0 (JsVal.num 0)) [exPendingA] "a@x"
      (by intro s hs he; rcases List.mem_singleton.mp hs with rfl; rfl)
      ⟨exMarked, by decide, rfl, rfl⟩

end ComeSoon
